import Mathlib

/-!
A shallow embedding of the `regex-engine` repository's parser
(`src/engine/parser.rs`), code-generator dispatch (`src/engine/codegen.rs`)
and overflow-guarded addition (`src/helper.rs`), together with theorems
settling the specification's claims about them.

Rust `Vec<T>` is modelled as `List T` with `push` appending at the end and
`pop` removing the last element; `usize` is modelled as `Nat` together with
an explicit `2 ^ 64` bound where overflow matters; fallible functions
return `Except`.
-/

set_option autoImplicit false

namespace Regex

/-- The AST type of `parser.rs` (`enum AST`): seven variants. -/
inductive AST where
  | char : Char → AST
  | dot : AST
  | plus : AST → AST
  | star : AST → AST
  | question : AST → AST
  | or : AST → AST → AST
  | seq : List AST → AST

/-- The parse-error type of `parser.rs` (`enum ParseError`). -/
inductive ParseError where
  | invalidEscape : Nat → Char → ParseError
  | invalidRightParen : Nat → ParseError
  | noPrev : Nat → ParseError
  | noRightParen : ParseError
  | empty : ParseError
deriving DecidableEq

/-- The code-generation error type of `codegen.rs` (`enum CodeGenError`). -/
inductive CodeGenError where
  | pcOverFlow : CodeGenError
  | failStar : CodeGenError
  | failOr : CodeGenError
  | failQuestion : CodeGenError
deriving DecidableEq

/-- The set of characters accepted after a backslash: the pattern of the
first arm of the `match` in `parse_escape` (`parser.rs` line 97). -/
def is_meta (c : Char) : Prop :=
  c = '\\' ∨ c = '(' ∨ c = ')' ∨ c = '|' ∨ c = '.' ∨ c = '+' ∨ c = '*' ∨ c = '?'

instance : DecidablePred is_meta := fun c => by
  unfold is_meta
  exact inferInstance

/-- `parse_escape` (`parser.rs` lines 95-103): a match whose first arm lists
the eight metacharacters (embedded as the membership test `is_meta`) and
returns `Char(c)`, and whose default arm fails with `InvalidEscape(pos, c)`. -/
def parse_escape (pos : Nat) (c : Char) : Except ParseError AST :=
  if is_meta c then Except.ok (AST.char c)
  else Except.error (ParseError.invalidEscape pos c)

/-- `enum PSQ` of `parser.rs`. -/
inductive PSQ where
  | plus : PSQ
  | star : PSQ
  | question : PSQ

/-- The inner `match ast_type` of `parse_dot_plus_star_question`
(`parser.rs` lines 123-127): which constructor wraps the popped element. -/
def psq_wrap : PSQ → AST → AST
  | PSQ.plus, prev => AST.plus prev
  | PSQ.star, prev => AST.star prev
  | PSQ.question, prev => AST.question prev

/-- `parse_dot_plus_star_question` (`parser.rs` lines 117-133): pop the last
element of `seq` and push it back wrapped by `psq_wrap`; if `seq` is empty,
fail with `NoPrev(pos)`.  `Vec::pop` is `getLast?`/`dropLast`, `Vec::push`
appends at the end. -/
def parse_dot_plus_star_question (seq : List AST) (ast_type : PSQ) (pos : Nat) :
    Except ParseError (List AST) :=
  match seq.getLast? with
  | some prev => Except.ok (seq.dropLast ++ [psq_wrap ast_type prev])
  | none => Except.error (ParseError.noPrev pos)

/-- `fold_or` (`parser.rs` lines 138-151): with more than one element, pop
the last into `ast`, reverse the rest and fold `ast = Or(s, ast)` over it;
otherwise return `pop()` (the sole element, or `none` when empty). -/
def fold_or (seq_or : List AST) : Option AST :=
  if seq_or.length > 1 then
    match seq_or.getLast? with
    | some last =>
        some (seq_or.dropLast.reverse.foldl (fun ast s => AST.or s ast) last)
    | none => none
  else
    seq_or.getLast?

/-- The two-state machine inside `parse` (`parser.rs` lines 158-161). -/
inductive ParseState where
  | char : ParseState
  | escape : ParseState

/-- The loop body of `parse` (`parser.rs` lines 168-222), fuelled by the
enumerated character list.  Carries the three accumulators `seq`, `seq_or`
and `stack` plus the current state; returns their final values (the state
is dropped at end of input, exactly as in the source). -/
def parse_loop : List (Nat × Char) → List AST → List AST →
    List (List AST × List AST) → ParseState →
    Except ParseError (List AST × List AST × List (List AST × List AST))
  | [], seq, seq_or, stack, _ => Except.ok (seq, seq_or, stack)
  | (i, c) :: rest, seq, seq_or, stack, ParseState.char =>
      if c = '+' then
        match parse_dot_plus_star_question seq PSQ.plus i with
        | Except.ok seq2 => parse_loop rest seq2 seq_or stack ParseState.char
        | Except.error e => Except.error e
      else if c = '*' then
        match parse_dot_plus_star_question seq PSQ.star i with
        | Except.ok seq2 => parse_loop rest seq2 seq_or stack ParseState.char
        | Except.error e => Except.error e
      else if c = '?' then
        match parse_dot_plus_star_question seq PSQ.question i with
        | Except.ok seq2 => parse_loop rest seq2 seq_or stack ParseState.char
        | Except.error e => Except.error e
      else if c = '(' then
        parse_loop rest [] [] ((seq, seq_or) :: stack) ParseState.char
      else if c = ')' then
        match stack with
        | (prev, prev_or) :: stack2 =>
            let seq_or2 := if seq.isEmpty then seq_or else seq_or ++ [AST.seq seq]
            let prev2 :=
              match fold_or seq_or2 with
              | some ast => prev ++ [ast]
              | none => prev
            parse_loop rest prev2 prev_or stack2 ParseState.char
        | [] => Except.error (ParseError.invalidRightParen i)
      else if c = '|' then
        if seq.isEmpty then Except.error (ParseError.noPrev i)
        else parse_loop rest [] (seq_or ++ [AST.seq seq]) stack ParseState.char
      else if c = '\\' then
        parse_loop rest seq seq_or stack ParseState.escape
      else if c = '.' then
        parse_loop rest (seq ++ [AST.dot]) seq_or stack ParseState.char
      else
        parse_loop rest (seq ++ [AST.char c]) seq_or stack ParseState.char
  | (i, c) :: rest, seq, seq_or, stack, ParseState.escape =>
      match parse_escape i c with
      | Except.ok ast => parse_loop rest (seq ++ [ast]) seq_or stack ParseState.char
      | Except.error e => Except.error e

/-- The code after the loop in `parse` (`parser.rs` lines 224-239): fail
with `NoRightParen` if the stack is nonempty, otherwise push the final
`seq` (when nonempty) onto `seq_or`, fold, and fail with `Empty` when the
fold yields nothing. -/
def parse_finish :
    List AST × List AST × List (List AST × List AST) → Except ParseError AST
  | (seq, seq_or, stack) =>
      if !stack.isEmpty then Except.error ParseError.noRightParen
      else
        let seq_or2 := if seq.isEmpty then seq_or else seq_or ++ [AST.seq seq]
        match fold_or seq_or2 with
        | some ast => Except.ok ast
        | none => Except.error ParseError.empty

/-- `parse` (`parser.rs` lines 154-240): run the loop over the enumerated
characters of `expr`, then the end-of-input code. -/
def parse (expr : String) : Except ParseError AST :=
  match parse_loop expr.toList.enum [] [] [] ParseState.char with
  | Except.ok ctx => parse_finish ctx
  | Except.error e => Except.error e

/-- The names of the six generator methods that the `match` inside
`gen_expr` (`codegen.rs` lines 38-49) dispatches to. -/
inductive GenCase where
  | genChar : GenCase
  | genOr : GenCase
  | genPlus : GenCase
  | genStar : GenCase
  | genQuestion : GenCase
  | genSeq : GenCase
deriving DecidableEq

/-- The dispatch of `gen_expr` (`codegen.rs` lines 39-46): its `match ast`
has arms for `Char`, `Or`, `Plus`, `Star`, `Question` and `Seq` only.
`AST::Dot` has no arm in the source, so the dispatch is modelled as
returning `none` there. -/
def gen_expr_case : AST → Option GenCase
  | AST.char _ => some GenCase.genChar
  | AST.or _ _ => some GenCase.genOr
  | AST.plus _ => some GenCase.genPlus
  | AST.star _ => some GenCase.genStar
  | AST.question _ => some GenCase.genQuestion
  | AST.seq _ => some GenCase.genSeq
  | AST.dot => none

/-- The size bound of `usize` on the 64-bit targets the crate builds for. -/
def usizeSize : Nat := 2 ^ 64

/-- `usize::checked_add`, the body of `<usize as SafeAdd>::safe_add`
(`helper.rs` lines 6-10): the sum when it fits in `usize`, else `none`. -/
def checked_add (a n : Nat) : Option Nat :=
  if a + n < usizeSize then some (a + n) else none

/-- The free function `safe_add` (`helper.rs` lines 13-24).  The Rust
function mutates `dst` through a reference; the model returns the final
value of `dst` paired with the `Result`: on `Some(n)` it stores `n` and
returns `Ok(())`, otherwise it leaves `dst` unchanged and returns
`Err(f())`. -/
def safe_add {E : Type} (dst src : Nat) (f : Unit → E) : Nat × Except E Unit :=
  match checked_add dst src with
  | some n => (n, Except.ok ())
  | none => (dst, Except.error (f ()))

/-- Specification-side description of alternation folding, following the
spec's words: right-folding a list of one or more alternatives, so that
`[a, b, c]` becomes `Or(a, Or(b, c))`, a singleton folds to its sole
element and an empty list folds to nothing.  To be compared with the
source-derived `fold_or`. -/
def right_fold_alts : List AST → Option AST
  | [] => none
  | [a] => some a
  | a :: b :: rest => (right_fold_alts (b :: rest)).map (AST.or a)

/-! ### Helper lemmas -/

/-- `fold_or` on a nonempty list is the right fold of the initial segment
over the last element. -/
theorem fold_or_concat (l : List AST) (x : AST) :
    fold_or (l ++ [x]) = some (l.foldr AST.or x) := by
  cases l with
  | nil => rfl
  | cons a t =>
      have hlen : ((a :: t) ++ [x]).length > 1 := by
        simp only [List.length_append, List.length_cons, List.length_nil]
        omega
      unfold fold_or
      rw [if_pos hlen, List.getLast?_concat, List.dropLast_concat]
      show some (List.foldl (fun ast s => AST.or s ast) x (a :: t).reverse) =
        some (List.foldr AST.or x (a :: t))
      rw [List.foldl_reverse]

/-- `right_fold_alts` on a nonempty list is the same right fold. -/
theorem right_fold_alts_concat (l : List AST) (x : AST) :
    right_fold_alts (l ++ [x]) = some (l.foldr AST.or x) := by
  induction l with
  | nil => rfl
  | cons a t ih =>
      cases ht : t ++ [x] with
      | nil => exact absurd ht (by simp)
      | cons b r =>
          have hc : (a :: t) ++ [x] = a :: b :: r := by
            rw [List.cons_append, ht]
          rw [hc]
          simp only [right_fold_alts]
          rw [← ht, ih]
          simp

/-- Running the parser loop over characters none of which is special simply
appends the corresponding `Char` nodes to `seq`. -/
theorem parse_loop_literals (ics : List (Nat × Char)) :
    ∀ (seq seq_or : List AST) (stack : List (List AST × List AST)),
      (∀ c ∈ ics.map Prod.snd, ¬ is_meta c) →
      parse_loop ics seq seq_or stack ParseState.char =
        Except.ok (seq ++ (ics.map Prod.snd).map AST.char, seq_or, stack) := by
  induction ics with
  | nil =>
      intro seq seq_or stack _
      simp [parse_loop]
  | cons p rest ih =>
      intro seq seq_or stack h
      obtain ⟨i, c⟩ := p
      have hc : ¬ is_meta c := by
        apply h
        simp
      have hrest : ∀ c' ∈ rest.map Prod.snd, ¬ is_meta c' := by
        intro c' hc'
        apply h
        simp only [List.map_cons, List.mem_cons]
        exact Or.inr hc'
      unfold is_meta at hc
      push_neg at hc
      obtain ⟨h1, h2, h3, h4, h5, h6, h7, h8⟩ := hc
      simp only [parse_loop, if_neg h1, if_neg h2, if_neg h3, if_neg h4,
        if_neg h5, if_neg h6, if_neg h7, if_neg h8]
      rw [ih (seq ++ [AST.char c]) seq_or stack hrest]
      simp

/-- Unfolding equation for `parse_finish` on an explicit triple. -/
theorem parse_finish_def (seq seq_or : List AST)
    (stack : List (List AST × List AST)) :
    parse_finish (seq, seq_or, stack) =
      if !stack.isEmpty then Except.error ParseError.noRightParen
      else
        match fold_or (if seq.isEmpty then seq_or
            else seq_or ++ [AST.seq seq]) with
        | some ast => Except.ok ast
        | none => Except.error ParseError.empty := rfl

/-! ### Claim theorems -/

/-- C1 counterexample: contrary to the claim, `parse("a|")` does not fail
with `NoPrev(1)`; it succeeds, returning `Seq([Char('a')])`, because the
bar-handler errors only when `seq` is empty at the bar itself, and at the
trailing bar `seq` still holds `Char('a')`. -/
theorem trailing_bar_claim_cex :
    parse ("a|") = Except.ok (AST.seq [AST.char 'a']) := rfl

/-- C1 (amended): `parse("|a")`, `parse("*a")` and `parse("*")` each fail
with `NoPrev` at the 0-based offset of the offending bar or star (0 in all
three cases), and `parse("a**")` is valid, the second `*` wrapping
`Star(Char('a'))`; but `parse("a|")` succeeds with `Seq([Char('a')])`: a
trailing bar is silently accepted and the empty final alternative is
dropped. -/
theorem no_prev_cases :
    parse ("|a") = Except.error (ParseError.noPrev 0)
    ∧ parse ("*a") = Except.error (ParseError.noPrev 0)
    ∧ parse ("*") = Except.error (ParseError.noPrev 0)
    ∧ parse ("a**") = Except.ok (AST.seq [AST.star (AST.star (AST.char 'a'))])
    ∧ parse ("a|") = Except.ok (AST.seq [AST.char 'a']) :=
  ⟨rfl, rfl, rfl, rfl, rfl⟩

/-- C2: the dispatch of `gen_expr` covers `Char`, `Or`, `Plus`, `Star`,
`Question` and `Seq`, but its `match` has no arm for `AST::Dot` — the
variant the claim says emits `AnyChar` is the one variant left unhandled
(in Rust, a non-exhaustive match, so the fragment does not even compile). -/
theorem gen_expr_dot_unhandled :
    gen_expr_case AST.dot = none
    ∧ (∀ c, gen_expr_case (AST.char c) = some GenCase.genChar)
    ∧ (∀ e1 e2, gen_expr_case (AST.or e1 e2) = some GenCase.genOr)
    ∧ (∀ e, gen_expr_case (AST.plus e) = some GenCase.genPlus)
    ∧ (∀ e, gen_expr_case (AST.star e) = some GenCase.genStar)
    ∧ (∀ e, gen_expr_case (AST.question e) = some GenCase.genQuestion)
    ∧ (∀ v, gen_expr_case (AST.seq v) = some GenCase.genSeq) :=
  ⟨rfl, fun _ => rfl, fun _ _ => rfl, fun _ => rfl, fun _ => rfl,
    fun _ => rfl, fun _ => rfl⟩

/-- C3 counterexample: the empty pattern consists only of literal
characters (vacuously), yet `parse("")` fails with `Empty` instead of
returning a `Seq` of `Char` nodes, so the claim as stated fails at the
empty pattern. -/
theorem literal_claim_cex : parse ("") = Except.error ParseError.empty := rfl

/-- C3 (amended): for every nonempty pattern consisting only of literal
characters (none of the eight metacharacters), `parse` succeeds and
returns a single `Seq` node whose children are exactly the `Char` nodes of
the pattern's characters in input order.  (The empty pattern instead fails
with `Empty`.) -/
theorem parse_literal_seq (cs : List Char) (h1 : cs ≠ [])
    (h2 : ∀ c ∈ cs, ¬ is_meta c) :
    parse (String.mk cs) = Except.ok (AST.seq (cs.map AST.char)) := by
  unfold parse
  have hl : (String.mk cs).toList = cs := rfl
  rw [hl, parse_loop_literals cs.enum [] [] []
    (by rw [List.enum_map_snd]; exact h2)]
  show parse_finish ([] ++ (cs.enum.map Prod.snd).map AST.char, [], []) = _
  rw [List.enum_map_snd, List.nil_append]
  have hne : (cs.map AST.char).isEmpty = false := by
    cases cs with
    | nil => exact absurd rfl h1
    | cons a t => rfl
  rw [parse_finish_def, if_neg (by simp), if_neg (by simp [hne]),
    List.nil_append]
  rfl

/-- C3 witness: the literal pattern `"abc"` parses to the sequence of its
three characters. -/
theorem parse_literal_seq_witness :
    parse ("abc") =
      Except.ok (AST.seq [AST.char 'a', AST.char 'b', AST.char 'c']) :=
  parse_literal_seq ['a', 'b', 'c'] (by decide) (by decide)

/-- C4: `fold_or` agrees everywhere with the spec's right fold — a list of
two or more alternatives folds to `Or(a1, Or(a2, ... Or(a(n-1), an)))`, a
singleton folds to its sole element and an empty list folds to nothing —
and `parse("a|b|c")` yields an `Or` whose right child is the `Or` of the
second and third alternatives. -/
theorem fold_or_right_fold :
    (∀ l : List AST, fold_or l = right_fold_alts l)
    ∧ parse ("a|b|c") = Except.ok (AST.or (AST.seq [AST.char 'a'])
        (AST.or (AST.seq [AST.char 'b']) (AST.seq [AST.char 'c']))) := by
  constructor
  · intro l
    rcases l.eq_nil_or_concat with h | ⟨L, b, h⟩
    · subst h
      rfl
    · subst h
      rw [List.concat_eq_append, fold_or_concat, right_fold_alts_concat]
  · rfl

/-- C5: `parse_dot_plus_star_question` on an empty accumulator fails with
`NoPrev` at the operator's offset; on a nonempty accumulator it pops the
last element and pushes it back wrapped in `Plus`/`Star`/`Question`
according to the operator.  At the `parse` level, `parse("ab*")` wraps only
the last node and `parse("a|*")` fails with `NoPrev(2)`, the star's 0-based
offset. -/
theorem psq_pop_wrap (t : PSQ) (pos : Nat) :
    parse_dot_plus_star_question [] t pos =
      Except.error (ParseError.noPrev pos)
    ∧ (∀ (init : List AST) (prev : AST),
        parse_dot_plus_star_question (init ++ [prev]) t pos =
          Except.ok (init ++ [psq_wrap t prev]))
    ∧ parse ("ab*") =
        Except.ok (AST.seq [AST.char 'a', AST.star (AST.char 'b')])
    ∧ parse ("a|*") = Except.error (ParseError.noPrev 2) := by
  refine ⟨rfl, ?_, rfl, rfl⟩
  intro init prev
  unfold parse_dot_plus_star_question
  rw [List.getLast?_concat, List.dropLast_concat]

/-- C6: the empty pattern fails with `Empty`, and `parse("()")` also fails
with `Empty` — the empty group pushes nothing, so at end of input the
alternative list is empty and the fold yields nothing. -/
theorem empty_pattern_errors :
    parse ("") = Except.error ParseError.empty
    ∧ parse ("()") = Except.error ParseError.empty := ⟨rfl, rfl⟩

/-- C7: when input ends, the loop returns its accumulators whatever state
it is in — a pattern ending in the `Escape` state reports no error for the
dangling backslash — and concretely `parse("a\\")` (single trailing
backslash character) succeeds with `Seq([Char('a')])`, silently discarding
the backslash. -/
theorem dangling_escape_discarded :
    (∀ (seq seq_or : List AST) (stack : List (List AST × List AST))
        (st : ParseState),
      parse_loop [] seq seq_or stack st = Except.ok (seq, seq_or, stack))
    ∧ parse ("a\\") = Except.ok (AST.seq [AST.char 'a']) :=
  ⟨fun _ _ _ _ => rfl, rfl⟩

/-- C8: a `)` met while the group stack is empty fails with
`InvalidRightParen` at that character's 0-based offset; a nonempty stack
left at end of input makes the finishing code fail with `NoRightParen`;
concretely, `parse("a)")` fails with `InvalidRightParen(1)` and
`parse("(a")` fails with `NoRightParen`. -/
theorem paren_mismatch_errors :
    (∀ (i : Nat) (rest : List (Nat × Char)) (seq seq_or : List AST),
      parse_loop ((i, ')') :: rest) seq seq_or [] ParseState.char =
        Except.error (ParseError.invalidRightParen i))
    ∧ (∀ (seq seq_or : List AST) (fr : List AST × List AST)
        (stack2 : List (List AST × List AST)),
      parse_finish (seq, seq_or, fr :: stack2) =
        Except.error ParseError.noRightParen)
    ∧ parse ("a)") = Except.error (ParseError.invalidRightParen 1)
    ∧ parse ("(a") = Except.error ParseError.noRightParen :=
  ⟨fun _ _ _ _ => rfl, fun _ _ _ _ => rfl, rfl, rfl⟩

/-- C9: in the `Escape` state, a metacharacter is appended to `seq` as a
literal `Char` node and parsing continues in the `Char` state; any other
character fails with `InvalidEscape` carrying that character's 0-based
offset and the character itself.  Concretely, `parse("\\*")` yields a
literal `Char('*')` and `parse("\\a")` fails with `InvalidEscape(1, 'a')`. -/
theorem escape_char_handling :
    (∀ (i : Nat) (c : Char) (rest : List (Nat × Char))
        (seq seq_or : List AST) (stack : List (List AST × List AST)),
      is_meta c →
        parse_loop ((i, c) :: rest) seq seq_or stack ParseState.escape =
          parse_loop rest (seq ++ [AST.char c]) seq_or stack ParseState.char)
    ∧ (∀ (i : Nat) (c : Char) (rest : List (Nat × Char))
        (seq seq_or : List AST) (stack : List (List AST × List AST)),
      ¬ is_meta c →
        parse_loop ((i, c) :: rest) seq seq_or stack ParseState.escape =
          Except.error (ParseError.invalidEscape i c))
    ∧ parse ("\\*") = Except.ok (AST.seq [AST.char '*'])
    ∧ parse ("\\a") = Except.error (ParseError.invalidEscape 1 'a') := by
  refine ⟨?_, ?_, rfl, rfl⟩
  · intro i c rest seq seq_or stack h
    simp only [parse_loop, parse_escape, if_pos h]
  · intro i c rest seq seq_or stack h
    simp only [parse_loop, parse_escape, if_neg h]

/-- C9 witness: the first branch at the metacharacter `'('` and the second
at the ordinary character `'q'`. -/
theorem escape_char_handling_witness :
    parse_loop [(0, '('), (1, 'x')] [] [] [] ParseState.escape =
      parse_loop [(1, 'x')] [AST.char '('] [] [] ParseState.char
    ∧ parse_loop [(0, 'q')] [] [] [] ParseState.escape =
      Except.error (ParseError.invalidEscape 0 'q') :=
  ⟨escape_char_handling.1 0 '(' [(1, 'x')] [] [] [] (by decide),
    escape_char_handling.2.1 0 'q' [] [] [] [] (by decide)⟩

/-- C10: for all `usize` values `dst` and `src`, `safe_add` returns `Ok(())`
and stores the mathematical sum in `dst` exactly when that sum fits in
`usize`; otherwise it returns `Err(f())` and leaves `dst` unchanged — no
wrapping, no other effect. -/
theorem safe_add_checked {E : Type} (dst src : Nat) (f : Unit → E) :
    (dst + src < usizeSize →
      safe_add dst src f = (dst + src, Except.ok ()))
    ∧ (usizeSize ≤ dst + src →
      safe_add dst src f = (dst, Except.error (f ()))) := by
  constructor
  · intro h
    unfold safe_add checked_add
    rw [if_pos h]
  · intro h
    unfold safe_add checked_add
    rw [if_neg (Nat.not_lt.mpr h)]

/-- C10 witness: an addition that fits and one that overflows `usize`. -/
theorem safe_add_checked_witness :
    safe_add 2 3 (fun _ => CodeGenError.pcOverFlow) = (5, Except.ok ())
    ∧ safe_add (2 ^ 64 - 1) 1 (fun _ => CodeGenError.pcOverFlow) =
      (2 ^ 64 - 1, Except.error CodeGenError.pcOverFlow) :=
  ⟨(safe_add_checked 2 3 (fun _ => CodeGenError.pcOverFlow)).1 (by decide),
    (safe_add_checked (2 ^ 64 - 1) 1 (fun _ => CodeGenError.pcOverFlow)).2
      (by decide)⟩

end Regex
